import Mathlib

/-!
# Verification of `gpyutils/scripts/list_pkg_impls.py`

A shallow embedding of the single reporting script of gpyutils: the
compatibility-log reader `process_pkgcheck_output`, the colour wrapper
`colorize`, and the per-group scan / output formatter inside `process`.

External collaborators (the package manager, the implementation registry,
`json.loads`) are modelled as parameters or opaque record fields; everything
the script itself computes is translated faithfully from the Python source.
-/

namespace Gpyutils

/-- Modelled from the spec: the tri-state release-channel classification
of a package version (`gpyutils.packages.PackageClass`, not under `src/`):
non-keyworded, keyworded-unstable ("testing"), or stable. -/
inductive PackageClass where
  | non_keyworded
  | testing
  | stable
deriving DecidableEq, Repr

/-- Modelled from the spec: an implementation record from the registry
(`gpyutils.implementations`, not under `src/`); the script only consumes
its canonical `short_name`. -/
structure Impl where
  short_name : String
deriving DecidableEq, Repr

/-- A package version record, as supplied by the external package database.
Fields are exactly the attributes the script consumes:
`slotted_atom` (the grouping key), `get_python_impls(p)` (`impls`),
`get_package_class(p)` (`cl`), `p.eapi`, `f"{p.key}-{p.version}"` (`keyVer`),
`p.inherits`, `p.restrict`, `p.properties`, and the contents of the file at
`p.path` (`fileLines`, one string per line). -/
structure Pkg where
  slotted_atom : String
  impls : Option (List Impl)
  cl : PackageClass
  eapi : String
  keyVer : String
  inherits : List String
  restrict : List String
  properties : List String
  fileLines : List String
deriving DecidableEq, Repr

/-- The presentation-flag bundle: the Python locals `ptype`, `test`,
`attest`, which are always assigned together (inside `if ptype is None:`). -/
structure Flags where
  ptype : String
  test : String
  attest : String
deriving DecidableEq, Repr

/-- Python's `x.startswith(pre)`: the characters of `pre` are a prefix of
the characters of `x`. -/
def lineStarts (x pre : String) : Bool :=
  pre.data.isPrefixOf x.data

/-- `x.startswith(("distutils_enable_tests ", "python_test()"))` — the
tuple form of `startswith` tests each alternative. -/
def isTestLine (x : String) : Bool :=
  lineStarts x "distutils_enable_tests " || lineStarts x "python_test()"

/-- The scan of the definition file at `p.path`:
```
for x in f:
    if x.startswith("DISTUTILS_USE_PEP517="):
        ptype = "(PEP517)"
    elif x.startswith("PYPI_VERIFY_REPO="):
        attest = "A"
    elif x.startswith(("distutils_enable_tests ", "python_test()")):
        test = "T"
        break
```
-/
def scanLines : List String → Flags → Flags
  | [], f => f
  | x :: xs, f =>
    if lineStarts x "DISTUTILS_USE_PEP517=" then
      scanLines xs { f with ptype := "(PEP517)" }
    else if lineStarts x "PYPI_VERIFY_REPO=" then
      scanLines xs { f with attest := "A" }
    else if isTestLine x then
      { f with test := "T" }
    else
      scanLines xs f

/-- Initial values of the flag bundle:
`ptype = "(legacy)"; test = " "; attest = " "`. -/
def flagInit : Flags := ⟨"(legacy)", " ", " "⟩

/-- The post-scan overrides applied to the flag bundle:
```
if "test_network" in p.properties:
    test = "N"
elif "test_privileged" in p.properties:
    test = "P"
elif "test" in p.restrict:
    test = "r"
if "distutils-r1" not in p.inherits:
    ptype = "        "
if "pypi" not in p.inherits:
    attest = " "
```
-/
def applyOverrides (p : Pkg) (f : Flags) : Flags :=
  let te :=
    if "test_network" ∈ p.properties then "N"
    else if "test_privileged" ∈ p.properties then "P"
    else if "test" ∈ p.restrict then "r"
    else f.test
  let pt := if "distutils-r1" ∉ p.inherits then "        " else f.ptype
  let a := if "pypi" ∉ p.inherits then " " else f.attest
  ⟨pt, te, a⟩

/-- The whole flag derivation performed when `ptype is None`: the definition
file is opened and scanned only under
`"distutils-r1" in p.inherits or "test" not in p.restrict or "pypi" in p.inherits`,
then the overrides run unconditionally. -/
def computeFlags (p : Pkg) : Flags :=
  applyOverrides p
    (if "distutils-r1" ∈ p.inherits ∨ "test" ∉ p.restrict ∨ "pypi" ∈ p.inherits
     then scanLines p.fileLines flagInit
     else flagInit)

/-- The per-group accumulators of the scan loop:
`kw_impls`, `st_impls`, `up_impls`, `eapi`, and the flag bundle
(`ptype` with its companions `test`/`attest`; `flags = none` is Python's
`ptype is None`). -/
structure ScanState where
  kw : List String
  st : List String
  up : List String
  eapi : Option String
  flags : Option Flags
deriving DecidableEq, Repr

/-- The accumulators at the start of a group:
`kw_impls = []; st_impls = []; up_impls = []; eapi = None; ptype = None`. -/
def initState : ScanState := ⟨[], [], [], none, none⟩

/-- One loop iteration on a version `p` with `get_python_impls(p) = impls`
(already known non-`None`): the lazy assignments of `eapi`, `kw_impls`,
`st_impls`, `up_impls` and the flag bundle.  `compat` is the
`compat_updates` mapping (`dict.get` with default `[]`), `resolve` is
`lambda x: get_impl_by_name(x).short_name` of the external registry. -/
def stepV (compat : String → List String) (resolve : String → String)
    (p : Pkg) (impls : List Impl) (s : ScanState) : ScanState :=
  let names := impls.map Impl.short_name
  let e := match s.eapi with
    | none => some p.eapi
    | some x => some x
  let kw := if s.kw = [] ∧ p.cl ≠ PackageClass.non_keyworded then names else s.kw
  let st := if s.st = [] ∧ p.cl = PackageClass.stable then names else s.st
  let up := if s.up = [] then (compat p.keyVer).map resolve else s.up
  let fl := match s.flags with
    | none => some (computeFlags p)
    | some f => some f
  ⟨kw, st, up, e, fl⟩

/-- The per-group loop `for p in reversed(pg)`, taking the versions
newest-first: break on the first version with `get_python_impls(p) is None`,
otherwise run the iteration body and break when
`kw_impls and st_impls` are both non-empty. -/
def scanGroup (compat : String → List String) (resolve : String → String) :
    List Pkg → ScanState → ScanState
  | [], s => s
  | p :: ps, s =>
    match p.impls with
    | none => s
    | some impls =>
      let s' := stepV compat resolve p impls s
      if s'.kw ≠ [] ∧ s'.st ≠ [] then s' else scanGroup compat resolve ps s'

/-- The first output field, `f"{str(getattr(p, key)):<40}"`: Python's `<40`
left-justifies in a field of minimum width 40 (padding with spaces; strings
of 40 or more characters pass through unchanged). -/
def formatSlot (s : String) : String :=
  s ++ String.mk (List.replicate (40 - s.length) ' ')

/-- Python's `{c:02d}`: the decimal rendering of `c`, zero-padded on the
left to a minimum width of 2. -/
def pad2 (c : Nat) : String :=
  if (toString c).length < 2 then "0" ++ toString c else toString c

/-- `def colorize(t, c): return f"\3{c:02d}{t}\3"` — the mIRC colour
wrapper. -/
def colorize (t : String) (c : Nat) : String :=
  "\x03" ++ pad2 c ++ t ++ "\x03"

/-- `c = colorize if mirc_color else lambda x, _: x`. -/
def pickColor (mirc : Bool) : String → Nat → String :=
  if mirc then colorize else fun x _ => x

/-- The colour code for the `test` flag character:
`9` for `"T"`, `4` for `"r"`, `11` otherwise. -/
def testColor (t : String) : Nat :=
  if t = "T" then 9 else if t = "r" then 4 else 11

/-- `kw_impls = [x for x in kw_impls if x not in st_impls]`. -/
def archOf (kw st : List String) : List String :=
  kw.filter (fun x => decide (x ∉ st))

/-- `up_impls = [x for x in up_impls if x not in kw_impls and x not in st_impls]`
(where `kw_impls` is the already-filtered list). -/
def upOf (up kw2 st : List String) : List String :=
  up.filter (fun x => decide (x ∉ kw2) && decide (x ∉ st))

/-- The `out` token list of one emitted line, parameterized by the colour
function `c` (the tokens are joined with `" ".join(out)` on printing). -/
def buildOut (c : String → Nat → String) (slot : String) (eapi : String)
    (fl : Flags) (kw st up : List String) : List String :=
  let o1 := [formatSlot slot, "EAPI:", c eapi 11, c fl.ptype 7,
             c fl.attest 9 ++ c fl.test (testColor fl.test)]
  let o2 := if st ≠ [] then " STABLE:" :: st.map (fun x => c x 9) else []
  let kw2 := archOf kw st
  let o3 := if kw2 ≠ [] then "  ~ARCH:" :: kw2.map (fun x => c x 11) else []
  let up2 := upOf up kw2 st
  let o4 := if up2 ≠ [] then "  UP:" :: up2.map (fun x => c x 7) else []
  o1 ++ o2 ++ o3 ++ o4

/-- One iteration of the outer `for pg in group_packages(...)` loop: scan the
group's versions (given newest-first, i.e. already as `reversed(pg)`), skip
the group when `not kw_impls and not st_impls`, otherwise build the output
tokens.  All members of a group share `slotted_atom` (the grouping key), so
the slot is passed once.  The `.getD` defaults stand for Python values that
are provably never used: `eapi` and the flag bundle are set whenever a line
is emitted — the source `assert ptype is not None` can never fire. -/
def processGroup (c : String → Nat → String) (compat : String → List String)
    (resolve : String → String) (slot : String) (vs : List Pkg) :
    Option (List String) :=
  let s := scanGroup compat resolve vs initState
  if s.kw = [] ∧ s.st = [] then none
  else some (buildOut c slot (s.eapi.getD "None") (s.flags.getD flagInit)
               s.kw s.st s.up)

/-! ## The compatibility-log reader `process_pkgcheck_output` -/

/-- A JSON value, as produced by the external `json.loads`. -/
inductive JVal where
  | jnull
  | jbool (b : Bool)
  | jnum (n : Int)
  | jstr (s : String)
  | jarr (xs : List JVal)
  | jobj (fields : List (String × JVal))
deriving Repr

/-- Python `data[k]` on a parsed JSON value: a field of an object, `none`
when the key is missing (KeyError) or the value is not an object
(TypeError) — both fatal in the source. -/
def JVal.get (v : JVal) (k : String) : Option JVal :=
  match v with
  | .jobj fs => fs.lookup k
  | _ => none

/-- Python `str()` as used when a JSON value is interpolated into the
f-string key.  The expected fields are strings; the renderings of nested
containers are placeholders (no claim concerns them). -/
def JVal.pyStr : JVal → String
  | .jnull => "None"
  | .jbool b => if b then "True" else "False"
  | .jnum n => toString n
  | .jstr s => s
  | .jarr _ => "[...]"
  | .jobj _ => "\x7b...\x7d"

/-- `data["__class__"] != "PythonCompatUpdate"` is the skip condition; this
is its negation (equality with the tag, false for any non-string value). -/
def isCompatTag : JVal → Bool
  | .jstr s => s == "PythonCompatUpdate"
  | _ => false

/-- The ways the reader dies: a `json.loads` failure on a line, or a
missing/unsubscriptable field. -/
inductive JErr where
  | parseFail
  | fieldMiss
deriving DecidableEq, Repr

/-- The generator body over the file's lines.  The result is the list of
pairs yielded before any error, together with the error that stopped the
scan (`none` when every line was consumed).  `loads` is the external
`json.loads`, returning `none` on malformed input (which the source lets
propagate). -/
def pkgcheckLines (loads : String → Option JVal) :
    List String → List (String × JVal) × Option JErr
  | [] => ([], none)
  | l :: ls =>
    match loads l with
    | none => ([], some JErr.parseFail)
    | some d =>
      match d.get "__class__" with
      | none => ([], some JErr.fieldMiss)
      | some cls =>
        if isCompatTag cls then
          match d.get "category", d.get "package", d.get "version",
                d.get "updates" with
          | some cat, some pk, some ver, some ups =>
            let r := pkgcheckLines loads ls
            ((cat.pyStr ++ "/" ++ pk.pyStr ++ "-" ++ ver.pyStr, ups) :: r.1,
             r.2)
          | _, _, _, _ => ([], some JErr.fieldMiss)
        else pkgcheckLines loads ls

/-- `process_pkgcheck_output(path)`: yields nothing when `path is None`,
otherwise reads the file's lines through the generator body. -/
def process_pkgcheck_output (loads : String → Option JVal) :
    Option (List String) → List (String × JVal) × Option JErr
  | none => ([], none)
  | some lines => pkgcheckLines loads lines

/-! ## Concrete example records (used by witnesses and counterexamples) -/

/-- A stable python-using version. -/
def pkgA : Pkg :=
  { slotted_atom := "dev-python/foo"
    impls := some [⟨"py3.11"⟩, ⟨"py3.12"⟩]
    cl := PackageClass.stable
    eapi := "8"
    keyVer := "dev-python/foo-1.0"
    inherits := ["distutils-r1"]
    restrict := []
    properties := []
    fileLines := ["DISTUTILS_USE_PEP517=standalone"] }

/-- A version with no declared implementations (`get_python_impls` is
`None`). -/
def pkgNoImpls : Pkg :=
  { slotted_atom := "dev-python/foo"
    impls := none
    cl := PackageClass.testing
    eapi := "7"
    keyVer := "dev-python/foo-0.9"
    inherits := []
    restrict := []
    properties := []
    fileLines := [] }

/-- A keyworded-unstable python-using version. -/
def pkgB : Pkg :=
  { slotted_atom := "dev-python/foo"
    impls := some [⟨"py3.12"⟩]
    cl := PackageClass.testing
    eapi := "8"
    keyVer := "dev-python/foo-1.1"
    inherits := ["distutils-r1", "pypi"]
    restrict := []
    properties := []
    fileLines := ["distutils_enable_tests pytest", "PYPI_VERIFY_REPO=1"] }

/-- An empty compatibility mapping. -/
def compat0 : String → List String := fun _ => []

/-- The identity registry resolution. -/
def resolve0 : String → String := fun x => x

/-! ## C1: break structure of the per-group scan -/

/-- **C1.** The per-group scan, iterating newest-to-oldest, stops in exactly
two ways: it returns immediately (inspecting nothing further — the result
does not depend on the remaining versions) on the first version whose
declared-implementation query is `none`, and it returns right after an
iteration that leaves both the keyworded and the stable list non-empty;
otherwise it continues with the rest.  A group whose scan ends with both
lists empty produces no output line. -/
theorem scan_break_structure (compat : String → List String)
    (resolve : String → String) (p : Pkg) (s : ScanState) :
    (p.impls = none → ∀ rest, scanGroup compat resolve (p :: rest) s = s) ∧
    (∀ impls, p.impls = some impls →
      ((stepV compat resolve p impls s).kw ≠ [] ∧
          (stepV compat resolve p impls s).st ≠ [] →
        ∀ rest, scanGroup compat resolve (p :: rest) s =
          stepV compat resolve p impls s) ∧
      (¬((stepV compat resolve p impls s).kw ≠ [] ∧
          (stepV compat resolve p impls s).st ≠ []) →
        ∀ rest, scanGroup compat resolve (p :: rest) s =
          scanGroup compat resolve rest (stepV compat resolve p impls s))) ∧
    (∀ c slot vs, (scanGroup compat resolve vs initState).kw = [] →
      (scanGroup compat resolve vs initState).st = [] →
      processGroup c compat resolve slot vs = none) := by
  refine ⟨fun h rest => ?_, fun impls h => ⟨fun hb rest => ?_, fun hb rest => ?_⟩,
    fun c slot vs h1 h2 => ?_⟩
  · simp [scanGroup, h]
  · simp [scanGroup, h, hb]
  · simp only [scanGroup, h]
    rw [if_neg hb]
  · simp [processGroup, h1, h2]

/-- Witness for C1: on a group whose newest version declares no
implementations, the scan returns the initial state whatever the tail is,
and the group yields no line. -/
theorem scan_break_structure_witness :
    scanGroup compat0 resolve0 [pkgNoImpls, pkgA] initState = initState ∧
    processGroup (fun x _ => x) compat0 resolve0 "dev-python/foo"
      [pkgNoImpls, pkgA] = none := by
  constructor
  · exact (scan_break_structure compat0 resolve0 pkgNoImpls initState).1 rfl [pkgA]
  · exact (scan_break_structure compat0 resolve0 pkgNoImpls initState).2.2
      (fun x _ => x) "dev-python/foo" [pkgNoImpls, pkgA]
      (by rw [(scan_break_structure compat0 resolve0 pkgNoImpls initState).1 rfl [pkgA]]; rfl)
      (by rw [(scan_break_structure compat0 resolve0 pkgNoImpls initState).1 rfl [pkgA]]; rfl)

/-! ## C2: no implementation name appears under more than one label -/

/-- **C2.** In every emitted line, the `~ARCH:` list is exactly the
keyworded list with the names that also occur in the stable list removed,
the `UP:` list is exactly the update list with the names that occur in the
stable list or in the filtered keyworded list removed, and the `STABLE:`
segment carries exactly the stable short names — so no name appears under
two labels. -/
theorem output_labels_disjoint (slot eapi : String) (fl : Flags)
    (kw st up : List String) :
    (∀ x, x ∈ archOf kw st ↔ x ∈ kw ∧ x ∉ st) ∧
    (∀ x, x ∈ upOf up (archOf kw st) st ↔
      x ∈ up ∧ x ∉ archOf kw st ∧ x ∉ st) ∧
    buildOut (fun x _ => x) slot eapi fl kw st up =
      [formatSlot slot, "EAPI:", eapi, fl.ptype, fl.attest ++ fl.test] ++
      (if st ≠ [] then " STABLE:" :: st else []) ++
      (if archOf kw st ≠ [] then "  ~ARCH:" :: archOf kw st else []) ++
      (if upOf up (archOf kw st) st ≠ [] then
        "  UP:" :: upOf up (archOf kw st) st else []) := by
  refine ⟨fun x => ?_, fun x => ?_, ?_⟩
  · simp [archOf, List.mem_filter]
  · simp only [upOf, List.mem_filter, Bool.and_eq_true, decide_eq_true_eq]
  · simp [buildOut]

/-! ## C3: when is the definition file opened? -/

/-- A version inheriting only `pypi`, with tests restricted: the claimed
open condition (distutils-r1 inherited, or test unrestricted) is false,
yet the source's condition holds through its `"pypi" in p.inherits`
disjunct, so the definition file is read. -/
def pkgPypiRestricted : Pkg :=
  { slotted_atom := "dev-python/bar"
    impls := some [⟨"py3.12"⟩]
    cl := PackageClass.testing
    eapi := "8"
    keyVer := "dev-python/bar-2.0"
    inherits := ["pypi"]
    restrict := ["test"]
    properties := []
    fileLines := ["PYPI_VERIFY_REPO=1"] }

/-- A version for which the source's open condition is false (no
distutils-r1, no pypi, tests restricted): the file is never read. -/
def pkgClosed : Pkg :=
  { slotted_atom := "dev-python/baz"
    impls := some [⟨"py3.12"⟩]
    cl := PackageClass.testing
    eapi := "8"
    keyVer := "dev-python/baz-1.0"
    inherits := []
    restrict := ["test"]
    properties := []
    fileLines := [] }

/-- **C3 counterexample.** The claim says the file is opened *only* when
distutils-r1 is inherited or tests are unrestricted.  For
`pkgPypiRestricted` that condition is false, yet the derived flags depend
on the file's contents (the `PYPI_VERIFY_REPO=` line flips the attestation
flag), so the file is read: the stated "if and only if" is false. -/
theorem open_condition_cex :
    ¬("distutils-r1" ∈ pkgPypiRestricted.inherits ∨
      "test" ∉ pkgPypiRestricted.restrict) ∧
    computeFlags pkgPypiRestricted ≠
      computeFlags { pkgPypiRestricted with fileLines := [] } := by
  constructor
  · decide
  · decide

/-- **C3 amended.** The definition file is opened and scanned if and only
if a build-system marker (`distutils-r1`) is inherited, or the restriction
set lacks `test`, **or the `pypi` marker is inherited**: under that
disjunction the flags are the overrides applied to the line scan of the
file, and when it fails the flags do not depend on the file's contents at
all. -/
theorem open_condition (p : Pkg) :
    (("distutils-r1" ∈ p.inherits ∨ "test" ∉ p.restrict ∨
        "pypi" ∈ p.inherits) →
      computeFlags p = applyOverrides p (scanLines p.fileLines flagInit)) ∧
    (¬("distutils-r1" ∈ p.inherits ∨ "test" ∉ p.restrict ∨
        "pypi" ∈ p.inherits) →
      ∀ ls, computeFlags { p with fileLines := ls } = computeFlags p) := by
  constructor
  · intro h
    simp only [computeFlags, if_pos h]
  · intro h ls
    simp only [computeFlags]
    rw [if_neg (by simpa using h), if_neg (by simpa using h)]
    simp [applyOverrides]

/-- Witness for C3 amended: `pkgA` (inherits distutils-r1) has its file
scanned; `pkgClosed` fails the condition and its flags ignore any file
contents. -/
theorem open_condition_witness :
    computeFlags pkgA = applyOverrides pkgA (scanLines pkgA.fileLines flagInit) ∧
    computeFlags { pkgClosed with fileLines := ["DISTUTILS_USE_PEP517=x"] } =
      computeFlags pkgClosed := by
  constructor
  · exact (open_condition pkgA).1 (by decide)
  · exact (open_condition pkgClosed).2 (by decide) ["DISTUTILS_USE_PEP517=x"]

/-! ## C4: the width of the first output field -/

/-- A 41-character slot identity. -/
def longSlot : String := String.mk (List.replicate 41 'a')

/-- **C4 counterexample.** The claim says a slot identity longer than the
field width is truncated, so the first field always occupies exactly 40
characters.  But Python's `:<40` only pads: on a 41-character slot the
field keeps all 41 characters. -/
theorem slot_field_width_cex :
    (formatSlot longSlot).length ≠ 40 ∧ formatSlot longSlot = longSlot := by
  constructor
  · decide
  · decide

/-- **C4 amended.** The first output field is the slot identity padded on
the right with spaces to exactly the fixed width 40 when it is shorter,
and passed through unchanged (never truncated) when it is longer; it is
always the head token of the emitted line. -/
theorem slot_field_width (s : String) :
    (s.length ≤ 40 → (formatSlot s).length = 40) ∧
    (40 ≤ s.length → formatSlot s = s) ∧
    (∀ c eapi fl kw st up,
      (buildOut c s eapi fl kw st up).head? = some (formatSlot s)) := by
  refine ⟨fun h => ?_, fun h => ?_, fun c eapi fl kw st up => ?_⟩
  · simp only [formatSlot, String.length_append, String.mk_length,
      List.length_replicate]
    omega
  · have h0 : 40 - s.length = 0 := by omega
    simp only [formatSlot, h0, List.replicate_zero]
    exact String.append_empty s
  · simp [buildOut]

/-- Witness for C4 amended: a short slot is padded to exactly 40; the
41-character slot passes through unchanged. -/
theorem slot_field_width_witness :
    (formatSlot "dev-python/foo").length = 40 ∧
    formatSlot longSlot = longSlot := by
  constructor
  · exact (slot_field_width "dev-python/foo").1 (by decide)
  · exact (slot_field_width longSlot).2.1 (by decide)

/-! ## C5: behaviour of the compatibility-log reader -/

/-- Helper: past a line that fails to parse, nothing is recovered — the
reader's result carries an error and does not depend on the lines after
the failing one. -/
theorem pkgcheckLines_badline (loads : String → Option JVal) (l : String)
    (h : loads l = none) :
    ∀ pre post, (pkgcheckLines loads (pre ++ l :: post)).2.isSome = true ∧
      ∀ post2, pkgcheckLines loads (pre ++ l :: post) =
        pkgcheckLines loads (pre ++ l :: post2) := by
  intro pre
  induction pre with
  | nil =>
    intro post
    simp [pkgcheckLines, h]
  | cons x xs ih =>
    intro post
    simp only [List.cons_append, pkgcheckLines]
    rcases hx : loads x with _ | d
    · simp
    · rcases hcls : d.get "__class__" with _ | cls
      · simp [hcls]
      · by_cases htag : isCompatTag cls = true
        · simp only [hcls, htag, if_true]
          rcases h1 : d.get "category" with _ | cat <;>
            rcases h2 : d.get "package" with _ | pk <;>
            rcases h3 : d.get "version" with _ | ver <;>
            rcases h4 : d.get "updates" with _ | ups <;>
            simp only [h1, h2, h3, h4] <;>
            try simp
          refine ⟨(ih post).1, fun post2 => ?_⟩
          rw [(ih post).2 post2]
          exact ⟨rfl, rfl⟩
        · simp only [Bool.not_eq_true] at htag
          simp only [hcls, htag, Bool.false_eq_true, if_false]
          exact ih post

/-- **C5.** The reader yields nothing when the path is absent; otherwise it
processes the lines one at a time: a line that fails to parse stops it with
a parse error (and nothing after that line is recovered), a parsed object
whose `__class__` differs from `"PythonCompatUpdate"` is skipped, and a
matching object contributes the pair
`("<category>/<package>-<version>", updates)`. -/
theorem pkgcheck_reader (loads : String → Option JVal) :
    process_pkgcheck_output loads none = ([], none) ∧
    (∀ l ls, loads l = none →
      pkgcheckLines loads (l :: ls) = ([], some JErr.parseFail)) ∧
    (∀ l ls d cls, loads l = some d → d.get "__class__" = some cls →
      isCompatTag cls = false →
      pkgcheckLines loads (l :: ls) = pkgcheckLines loads ls) ∧
    (∀ l ls d cls cat pk ver ups, loads l = some d →
      d.get "__class__" = some cls → isCompatTag cls = true →
      d.get "category" = some cat → d.get "package" = some pk →
      d.get "version" = some ver → d.get "updates" = some ups →
      pkgcheckLines loads (l :: ls) =
        ((cat.pyStr ++ "/" ++ pk.pyStr ++ "-" ++ ver.pyStr, ups) ::
            (pkgcheckLines loads ls).1,
          (pkgcheckLines loads ls).2)) ∧
    (∀ pre l post, loads l = none →
      (pkgcheckLines loads (pre ++ l :: post)).2.isSome = true ∧
      ∀ post2, pkgcheckLines loads (pre ++ l :: post) =
        pkgcheckLines loads (pre ++ l :: post2)) := by
  refine ⟨rfl, fun l ls h => ?_, fun l ls d cls h hc ht => ?_,
    fun l ls d cls cat pk ver ups h hc ht h1 h2 h3 h4 => ?_,
    fun pre l post h => pkgcheckLines_badline loads l h pre post⟩
  · simp [pkgcheckLines, h]
  · simp [pkgcheckLines, h, hc, ht]
  · simp [pkgcheckLines, h, hc, ht, h1, h2, h3, h4]

/-- A concrete `json.loads` for the witness: `"good"` parses to a matching
compatibility-update object, `"other"` to an object of another class, and
anything else fails to parse. -/
def loadsEx : String → Option JVal := fun l =>
  if l = "good" then
    some (JVal.jobj
      [("__class__", JVal.jstr "PythonCompatUpdate"),
       ("category", JVal.jstr "dev-python"),
       ("package", JVal.jstr "foo"),
       ("version", JVal.jstr "1.0"),
       ("updates", JVal.jarr [JVal.jstr "python3_12"])])
  else if l = "other" then
    some (JVal.jobj [("__class__", JVal.jstr "Other")])
  else none

/-- Witness for C5, on `loadsEx`: the absent path yields nothing; a bad
line raises; an `"Other"`-class line is skipped; a matching line yields its
pair; and a file with a bad line in the middle ends in an error whatever
follows the bad line. -/
theorem pkgcheck_reader_witness :
    process_pkgcheck_output loadsEx none = ([], none) ∧
    pkgcheckLines loadsEx ["bad", "good"] = ([], some JErr.parseFail) ∧
    pkgcheckLines loadsEx ["other", "good"] = pkgcheckLines loadsEx ["good"] ∧
    pkgcheckLines loadsEx ["good"] =
      (("dev-python/foo-1.0", JVal.jarr [JVal.jstr "python3_12"]) ::
          (pkgcheckLines loadsEx []).1,
        (pkgcheckLines loadsEx []).2) ∧
    (pkgcheckLines loadsEx (["good"] ++ "bad" :: ["good"])).2.isSome = true := by
  refine ⟨(pkgcheck_reader loadsEx).1,
    (pkgcheck_reader loadsEx).2.1 "bad" ["good"] rfl,
    (pkgcheck_reader loadsEx).2.2.1 "other" ["good"] _ (JVal.jstr "Other")
      rfl rfl rfl,
    (pkgcheck_reader loadsEx).2.2.2.1 "good" [] _ (JVal.jstr "PythonCompatUpdate")
      (JVal.jstr "dev-python") (JVal.jstr "foo") (JVal.jstr "1.0")
      (JVal.jarr [JVal.jstr "python3_12"]) rfl rfl rfl rfl rfl rfl rfl,
    ((pkgcheck_reader loadsEx).2.2.2.2 ["good"] "bad" ["good"] rfl).1⟩

/-! ## C6: each per-group value is assigned at most once -/

/-- Helper: any predicate preserved by one loop iteration is preserved by
the whole per-group scan (whichever way the scan breaks). -/
theorem scanGroup_preserves (compat : String → List String)
    (resolve : String → String) (P : ScanState → Prop)
    (hstep : ∀ p impls s, P s → P (stepV compat resolve p impls s)) :
    ∀ vs s, P s → P (scanGroup compat resolve vs s) := by
  intro vs
  induction vs with
  | nil => exact fun s hs => hs
  | cons p ps ih =>
    intro s hs
    rcases hp : p.impls with _ | impls
    · simpa [scanGroup, hp] using hs
    · simp only [scanGroup, hp]
      by_cases hb : (stepV compat resolve p impls s).kw ≠ [] ∧
        (stepV compat resolve p impls s).st ≠ []
      · rw [if_pos hb]
        exact hstep p impls s hs
      · rw [if_neg hb]
        exact ih _ (hstep p impls s hs)

/-- **C6.** One loop iteration assigns each per-group value lazily, and the
scan never overwrites a value that is already set: the API tag is taken
from the first inspected version; the keyworded list from the first
version whose class is not non-keyworded; the stable list from the first
version classified stable; the update list from the first version while
the list is still empty (so effectively from the first version with a
non-empty resolved compatibility entry); the flag bundle from the first
version at which it is unset.  Once a value is set (a list non-empty, an
option `some`), every later iteration and the whole remaining scan leave
it unchanged. -/
theorem lazy_populate_once (compat : String → List String)
    (resolve : String → String) (p : Pkg) (impls : List Impl)
    (s : ScanState) :
    (s.eapi = none →
      (stepV compat resolve p impls s).eapi = some p.eapi) ∧
    (∀ e, s.eapi = some e →
      (stepV compat resolve p impls s).eapi = some e) ∧
    (s.kw = [] → p.cl ≠ PackageClass.non_keyworded →
      (stepV compat resolve p impls s).kw = impls.map Impl.short_name) ∧
    (s.kw = [] → p.cl = PackageClass.non_keyworded →
      (stepV compat resolve p impls s).kw = []) ∧
    (s.kw ≠ [] → (stepV compat resolve p impls s).kw = s.kw) ∧
    (s.st = [] → p.cl = PackageClass.stable →
      (stepV compat resolve p impls s).st = impls.map Impl.short_name) ∧
    (s.st = [] → p.cl ≠ PackageClass.stable →
      (stepV compat resolve p impls s).st = []) ∧
    (s.st ≠ [] → (stepV compat resolve p impls s).st = s.st) ∧
    (s.up = [] →
      (stepV compat resolve p impls s).up = (compat p.keyVer).map resolve) ∧
    (s.up ≠ [] → (stepV compat resolve p impls s).up = s.up) ∧
    (s.flags = none →
      (stepV compat resolve p impls s).flags = some (computeFlags p)) ∧
    (∀ f, s.flags = some f →
      (stepV compat resolve p impls s).flags = some f) ∧
    (∀ vs s0,
      (∀ e, s0.eapi = some e →
        (scanGroup compat resolve vs s0).eapi = some e) ∧
      (s0.kw ≠ [] → (scanGroup compat resolve vs s0).kw = s0.kw) ∧
      (s0.st ≠ [] → (scanGroup compat resolve vs s0).st = s0.st) ∧
      (s0.up ≠ [] → (scanGroup compat resolve vs s0).up = s0.up) ∧
      (∀ f, s0.flags = some f →
        (scanGroup compat resolve vs s0).flags = some f)) := by
  refine ⟨fun h => by simp [stepV, h],
    fun e h => by simp [stepV, h],
    fun h1 h2 => by simp [stepV, h1, h2],
    fun h1 h2 => by simp [stepV, h1, h2],
    fun h => by simp [stepV, h],
    fun h1 h2 => by simp [stepV, h1, h2],
    fun h1 h2 => by simp [stepV, h1, h2],
    fun h => by simp [stepV, h],
    fun h => by simp [stepV, h],
    fun h => by simp [stepV, h],
    fun h => by simp [stepV, h],
    fun f h => by simp [stepV, h],
    fun vs s0 => ⟨?_, ?_, ?_, ?_, ?_⟩⟩
  · intro e he
    exact scanGroup_preserves compat resolve (fun t => t.eapi = some e)
      (fun p2 impls2 s2 hs2 => by simp [stepV, hs2]) vs s0 he
  · intro hk
    exact scanGroup_preserves compat resolve (fun t => t.kw = s0.kw)
      (fun p2 impls2 s2 hs2 => by simp [stepV, hs2, hk]) vs s0 rfl
  · intro hs
    exact scanGroup_preserves compat resolve (fun t => t.st = s0.st)
      (fun p2 impls2 s2 hs2 => by simp [stepV, hs2, hs]) vs s0 rfl
  · intro hu
    exact scanGroup_preserves compat resolve (fun t => t.up = s0.up)
      (fun p2 impls2 s2 hs2 => by simp [stepV, hs2, hu]) vs s0 rfl
  · intro f hf
    exact scanGroup_preserves compat resolve (fun t => t.flags = some f)
      (fun p2 impls2 s2 hs2 => by simp [stepV, hs2]) vs s0 hf

/-- A scan state in which every per-group value is already set. -/
def stFull : ScanState :=
  ⟨["kept"], ["stkept"], ["upkept"], some "7", some flagInit⟩

/-- Witness for C6: on concrete inputs, the first inspected version sets
the API tag; an already non-empty keyworded list survives an iteration on
a keyworded version; and a whole scan leaves an already-set stable list
unchanged. -/
theorem lazy_populate_once_witness :
    (stepV compat0 resolve0 pkgA [⟨"py3.11"⟩] initState).eapi =
      some pkgA.eapi ∧
    (stepV compat0 resolve0 pkgB [⟨"py3.12"⟩] stFull).kw = stFull.kw ∧
    (scanGroup compat0 resolve0 [pkgA] stFull).st = stFull.st := by
  refine ⟨(lazy_populate_once compat0 resolve0 pkgA [⟨"py3.11"⟩] initState).1
      rfl, ?_, ?_⟩
  · exact (lazy_populate_once compat0 resolve0 pkgB [⟨"py3.12"⟩]
      stFull).2.2.2.2.1 (by decide)
  · exact ((lazy_populate_once compat0 resolve0 pkgA [] initState
      ).2.2.2.2.2.2.2.2.2.2.2.2 [pkgA] stFull).2.2.1 (by decide)

/-! ## C7: detail of the presentation-flag derivation -/

/-- Helper: a string starting with `pre` starts with `pre`'s first
character. -/
theorem lineStarts_head {x pre : String} {c : Char}
    (h : lineStarts x pre = true) (hc : pre.data.head? = some c) :
    x.data.head? = some c := by
  have hp : pre.data <+: x.data := by
    simpa [lineStarts, List.isPrefixOf_iff_prefix] using h
  rcases hp with ⟨r, hr⟩
  cases hpre : pre.data with
  | nil => simp [hpre] at hc
  | cons a t =>
    rw [hpre] at hr hc
    rw [← hr]
    simpa using hc

/-- Helper: a test-enabling line (first character `'d'` or `'p'`) matches
neither the `DISTUTILS_USE_PEP517=` prefix (first character `'D'`) nor the
`PYPI_VERIFY_REPO=` prefix (first character `'P'`). -/
theorem isTestLine_excl {x : String} (h : isTestLine x = true) :
    lineStarts x "DISTUTILS_USE_PEP517=" = false ∧
    lineStarts x "PYPI_VERIFY_REPO=" = false := by
  have h' : lineStarts x "distutils_enable_tests " = true ∨
      lineStarts x "python_test()" = true := by
    simpa [isTestLine] using h
  have hx : x.data.head? = some 'd' ∨ x.data.head? = some 'p' := by
    rcases h' with h1 | h1
    · exact Or.inl (lineStarts_head h1 rfl)
    · exact Or.inr (lineStarts_head h1 rfl)
  constructor
  · by_contra hc
    rw [Bool.not_eq_false] at hc
    have hD := lineStarts_head hc (show ("DISTUTILS_USE_PEP517=").data.head? =
      some 'D' from rfl)
    rcases hx with h2 | h2 <;> rw [hD] at h2 <;> exact absurd h2 (by decide)
  · by_contra hc
    rw [Bool.not_eq_false] at hc
    have hP := lineStarts_head hc (show ("PYPI_VERIFY_REPO=").data.head? =
      some 'P' from rfl)
    rcases hx with h2 | h2 <;> rw [hP] at h2 <;> exact absurd h2 (by decide)

/-- Helper: hitting a test-enabling line sets the test flag and breaks the
file scan: the result ignores everything after that line. -/
theorem scanLines_testline {l : String} (hl : isTestLine l = true) :
    ∀ pre (f : Flags) post post2,
      scanLines (pre ++ l :: post) f = scanLines (pre ++ l :: post2) f ∧
      (scanLines (pre ++ l :: post) f).test = "T" := by
  intro pre
  induction pre with
  | nil =>
    intro f post post2
    obtain ⟨h1, h2⟩ := isTestLine_excl hl
    constructor
    · simp [scanLines, h1, h2, hl]
    · simp [scanLines, h1, h2, hl]
  | cons x xs ih =>
    intro f post post2
    simp only [List.cons_append, scanLines]
    by_cases hx1 : lineStarts x "DISTUTILS_USE_PEP517=" = true
    · simp only [hx1, if_true]
      exact ih _ post post2
    · rw [Bool.not_eq_true] at hx1
      simp only [hx1, Bool.false_eq_true, if_false]
      by_cases hx2 : lineStarts x "PYPI_VERIFY_REPO=" = true
      · simp only [hx2, if_true]
        exact ih _ post post2
      · rw [Bool.not_eq_true] at hx2
        simp only [hx2, Bool.false_eq_true, if_false]
        by_cases hx3 : isTestLine x = true
        · simp [hx3]
        · rw [Bool.not_eq_true] at hx3
          simp only [hx3, Bool.false_eq_true, if_false]
          exact ih _ post post2

/-- **C7.** In the file scan, a test-enabling line sets the test flag to
`"T"` and stops the scan at once (later lines are never examined).  After
the scan the test flag is overridden to `"N"` when the properties contain
`test_network`, else to `"P"` when they contain `test_privileged`, else to
`"r"` when the restriction set contains `test` (otherwise the scan's value
survives); the build-type flag is blanked exactly when `distutils-r1` is
not inherited, and the attestation flag is blanked exactly when `pypi` is
not inherited. -/
theorem flag_derivation (p : Pkg) (g : Flags) :
    (∀ pre l post post2, isTestLine l = true →
      scanLines (pre ++ l :: post) g = scanLines (pre ++ l :: post2) g) ∧
    (∀ pre l post, isTestLine l = true →
      (scanLines (pre ++ l :: post) g).test = "T") ∧
    ("test_network" ∈ p.properties → (applyOverrides p g).test = "N") ∧
    ("test_network" ∉ p.properties → "test_privileged" ∈ p.properties →
      (applyOverrides p g).test = "P") ∧
    ("test_network" ∉ p.properties → "test_privileged" ∉ p.properties →
      "test" ∈ p.restrict → (applyOverrides p g).test = "r") ∧
    ("test_network" ∉ p.properties → "test_privileged" ∉ p.properties →
      "test" ∉ p.restrict → (applyOverrides p g).test = g.test) ∧
    ("distutils-r1" ∉ p.inherits → (applyOverrides p g).ptype = "        ") ∧
    ("distutils-r1" ∈ p.inherits → (applyOverrides p g).ptype = g.ptype) ∧
    ("pypi" ∉ p.inherits → (applyOverrides p g).attest = " ") ∧
    ("pypi" ∈ p.inherits → (applyOverrides p g).attest = g.attest) := by
  refine ⟨fun pre l post post2 hl => (scanLines_testline hl pre g post post2).1,
    fun pre l post hl => (scanLines_testline hl pre g post post).2,
    fun h => by simp [applyOverrides, h],
    fun h1 h2 => by simp [applyOverrides, h1, h2],
    fun h1 h2 h3 => by simp [applyOverrides, h1, h2, h3],
    fun h1 h2 h3 => by simp [applyOverrides, h1, h2, h3],
    fun h => by simp [applyOverrides, h],
    fun h => by simp [applyOverrides, h],
    fun h => by simp [applyOverrides, h],
    fun h => by simp [applyOverrides, h]⟩

/-- Witness for C7: with a `python_test()` line in the middle of a file,
the scan result ignores the lines after it and reports a test phase; and
on `pkgPypiRestricted` (tests restricted, no network/privileged marks) the
override turns the test flag into `"r"`. -/
theorem flag_derivation_witness :
    scanLines (["A=1"] ++ "python_test()" :: ["PYPI_VERIFY_REPO=1"]) flagInit =
      scanLines (["A=1"] ++ "python_test()" :: []) flagInit ∧
    (scanLines (["A=1"] ++ "python_test()" :: ["PYPI_VERIFY_REPO=1"])
      flagInit).test = "T" ∧
    (applyOverrides pkgPypiRestricted flagInit).test = "r" := by
  refine ⟨(flag_derivation pkgPypiRestricted flagInit).1 ["A=1"] "python_test()"
      ["PYPI_VERIFY_REPO=1"] [] (by decide), ?_, ?_⟩
  · exact (flag_derivation pkgPypiRestricted flagInit).2.1 ["A=1"]
      "python_test()" ["PYPI_VERIFY_REPO=1"] (by decide)
  · exact (flag_derivation pkgPypiRestricted flagInit).2.2.2.2.1
      (by decide) (by decide) (by decide)

/-! ## C8: the colour toggle is presentation-only -/

/-- Correspondence between a token of the plain line and the token at the
same position of the colourized line: identical, or the same text wrapped
by `colorize`, or (for the two-character attestation+test field) the
concatenation of two wrapped pieces. -/
def colorRel (a b : String) : Prop :=
  b = a ∨ (∃ k, b = colorize a k) ∨
    (∃ t1 k1 t2 k2, a = t1 ++ t2 ∧ b = colorize t1 k1 ++ colorize t2 k2)

/-- Helper: a mapped token list is pointwise wrapped. -/
theorem colorRel_map (l : List String) (k : Nat) :
    List.Forall₂ colorRel (l.map (fun x => x)) (l.map (fun x => colorize x k)) := by
  induction l with
  | nil => exact List.Forall₂.nil
  | cons a t ih =>
    simp only [List.map]
    exact List.Forall₂.cons (Or.inr (Or.inl ⟨k, rfl⟩)) ih

/-- **C8.** `colorize` wraps a token as `\x03`, a two-digit zero-padded
colour code, the token, `\x03` (the codes the script uses are all below
100, where the rendering has exactly two digits); and the colourized line
has exactly the same tokens as the plain line, each either identical or
wrapped — the toggle selects no different fields. -/
theorem mirc_color_toggle (slot eapi : String) (fl : Flags)
    (kw st up : List String) :
    (∀ t k, colorize t k = "\x03" ++ pad2 k ++ t ++ "\x03") ∧
    (∀ k, k < 100 → (pad2 k).length = 2) ∧
    List.Forall₂ colorRel
      (buildOut (pickColor false) slot eapi fl kw st up)
      (buildOut (pickColor true) slot eapi fl kw st up) := by
  refine ⟨fun t k => rfl, by decide, ?_⟩
  have hfalse : pickColor false = fun x _ => x := rfl
  have htrue : pickColor true = colorize := rfl
  rw [hfalse, htrue]
  simp only [buildOut]
  refine List.rel_append (List.rel_append (List.rel_append ?_ ?_) ?_) ?_
  · refine List.Forall₂.cons (Or.inl rfl) ?_
    refine List.Forall₂.cons (Or.inl rfl) ?_
    refine List.Forall₂.cons (Or.inr (Or.inl ⟨11, rfl⟩)) ?_
    refine List.Forall₂.cons (Or.inr (Or.inl ⟨7, rfl⟩)) ?_
    exact List.Forall₂.cons
      (Or.inr (Or.inr ⟨fl.attest, 9, fl.test, testColor fl.test, rfl, rfl⟩))
      List.Forall₂.nil
  · by_cases hst : st ≠ []
    · rw [if_pos hst, if_pos hst]
      exact List.Forall₂.cons (Or.inl rfl) (colorRel_map st 9)
    · rw [if_neg hst, if_neg hst]
      exact List.Forall₂.nil
  · by_cases hkw : archOf kw st ≠ []
    · rw [if_pos hkw, if_pos hkw]
      exact List.Forall₂.cons (Or.inl rfl) (colorRel_map (archOf kw st) 11)
    · rw [if_neg hkw, if_neg hkw]
      exact List.Forall₂.nil
  · by_cases hup : upOf up (archOf kw st) st ≠ []
    · rw [if_pos hup, if_pos hup]
      exact List.Forall₂.cons (Or.inl rfl)
        (colorRel_map (upOf up (archOf kw st) st) 7)
    · rw [if_neg hup, if_neg hup]
      exact List.Forall₂.nil

/-- Witness for C8: the colour code 4 renders as two digits, and the wrap
shape at a concrete token. -/
theorem mirc_color_toggle_witness :
    (pad2 4).length = 2 ∧
    colorize "py3.12" 4 = "\x03" ++ pad2 4 ++ "py3.12" ++ "\x03" :=
  ⟨(mirc_color_toggle "s" "8" flagInit [] [] []).2.1 4 (by decide),
   (mirc_color_toggle "s" "8" flagInit [] [] []).1 "py3.12" 4⟩

/-! ## C9: the output-stage assertion can never fail -/

/-- **C9.** Whenever a group reaches the output stage (the scan left the
keyworded or the stable list non-empty, so a line is emitted), the API tag
and the flag bundle are necessarily set: the source's
`assert ptype is not None` cannot fail, and `eapi` is never `None` in an
emitted line. -/
theorem assert_flags_never_none (compat : String → List String)
    (resolve : String → String) (c : String → Nat → String) (slot : String)
    (vs : List Pkg) :
    (processGroup c compat resolve slot vs).isSome = true →
    (scanGroup compat resolve vs initState).eapi.isSome = true ∧
    (scanGroup compat resolve vs initState).flags.isSome = true := by
  intro h
  have hinv := scanGroup_preserves compat resolve
    (fun t => (t.kw ≠ [] ∨ t.st ≠ []) →
      t.eapi.isSome = true ∧ t.flags.isSome = true)
    (fun p impls s _ _ => by
      constructor
      · cases hs : s.eapi <;> simp [stepV, hs]
      · cases hs : s.flags <;> simp [stepV, hs])
    vs initState (by simp [initState])
  have hne : ¬((scanGroup compat resolve vs initState).kw = [] ∧
      (scanGroup compat resolve vs initState).st = []) := by
    intro hc
    simp [processGroup, hc.1, hc.2] at h
  exact hinv (not_and_or.mp hne)

/-- Witness for C9: the group `[pkgA]` emits a line, and indeed its scan
ends with the API tag and the flag bundle set. -/
theorem assert_flags_never_none_witness :
    (scanGroup compat0 resolve0 [pkgA] initState).eapi.isSome = true ∧
    (scanGroup compat0 resolve0 [pkgA] initState).flags.isSome = true :=
  assert_flags_never_none compat0 resolve0 (fun x _ => x) "dev-python/foo"
    [pkgA] (by decide)

/-! ## C10: a non-empty stable list forces a non-empty keyworded list -/

/-- **C10.** After any group scan, a non-empty stable list implies a
non-empty keyworded list (a stable version is not non-keyworded and the
keyworded assignment is attempted first in the same iteration), so the
group-skip test "both lists empty" is equivalent to "keyworded list
empty". -/
theorem stable_needs_keyworded (compat : String → List String)
    (resolve : String → String) (vs : List Pkg) :
    ((scanGroup compat resolve vs initState).st ≠ [] →
      (scanGroup compat resolve vs initState).kw ≠ []) ∧
    (((scanGroup compat resolve vs initState).kw = [] ∧
        (scanGroup compat resolve vs initState).st = []) ↔
      (scanGroup compat resolve vs initState).kw = []) := by
  have hinv := scanGroup_preserves compat resolve
    (fun t => t.st ≠ [] → t.kw ≠ [])
    (fun p impls s hs => by
      intro hne
      simp only [stepV] at hne ⊢
      by_cases hst0 : s.st = [] ∧ p.cl = PackageClass.stable
      · rw [if_pos hst0] at hne
        by_cases hkw0 : s.kw = [] ∧ p.cl ≠ PackageClass.non_keyworded
        · rw [if_pos hkw0]
          exact hne
        · rw [if_neg hkw0]
          by_cases hk : s.kw = []
          · exact absurd ⟨hk, by rw [hst0.2]; decide⟩ hkw0
          · exact hk
      · rw [if_neg hst0] at hne
        have hkne := hs hne
        rw [if_neg (fun hcc => hkne hcc.1)]
        exact hkne)
    vs initState (by simp [initState])
  refine ⟨hinv, ⟨fun hc => hc.1, fun hk => ⟨hk, ?_⟩⟩⟩
  by_contra hst
  exact hinv hst hk

/-- Witness for C10: the scan of `[pkgA]` (a stable version) ends with a
non-empty stable list, hence a non-empty keyworded list. -/
theorem stable_needs_keyworded_witness :
    (scanGroup compat0 resolve0 [pkgA] initState).kw ≠ [] :=
  (stable_needs_keyworded compat0 resolve0 [pkgA]).1 (by decide)

end Gpyutils
